import Mathlib

/-!
Shallow embedding of the revenue/reinvestment engine, the AI scoring
heuristic and the arbitrage strategy of the Blockchain_Ai_Agent
repository.  Monetary quantities and prices (JS `number`) are modelled
as exact rationals; presentational string fields (log lines, generated
"reasoning" text) and wallet/transaction side effects are not part of
the ledger model.
-/

namespace BlockchainAgent

/-- Ledger state of `RevenueManager.earnings` (src/agent/revenue-manager.ts).
The JS object `byService` is modelled as an association list with unique
keys, in insertion order. -/
structure AgentEarnings where
  total : ℚ
  byService : List (String × ℚ)
  reinvested : ℚ
  available : ℚ
  deriving DecidableEq, Repr

/-- State of a `RevenueManager` instance: the ledger, the constructor's
`reinvestmentThreshold`, and the size of the `subAgents` map (sub-agent
records are inert; only their count feeds back into decisions). -/
structure RevenueManager where
  earnings : AgentEarnings
  reinvestmentThreshold : ℚ
  subAgents : ℕ
  deriving DecidableEq, Repr

/-- Embedding of `byService[serviceId] = (byService[serviceId] || 0) + amount`:
update the entry in place when the key exists, otherwise add it. -/
def updateService : List (String × ℚ) → String → ℚ → List (String × ℚ)
  | [], sid, amt => [(sid, amt)]
  | (k, v) :: rest, sid, amt =>
    if k = sid then (k, v + amt) :: rest
    else (k, v) :: updateService rest sid amt

/-- Sum of the per-service earnings, `sum(byService)` in the spec. -/
def sumByService (l : List (String × ℚ)) : ℚ :=
  (l.map Prod.snd).sum

/-- Embedding of `RevenueManager.shouldUpgrade`:
`this.subAgents.size < 2 || this.earnings.total > 10`. -/
def shouldUpgrade (m : RevenueManager) : Bool :=
  decide (m.subAgents < 2) || decide ((10 : ℚ) < m.earnings.total)

/-- Embedding of `RevenueManager.considerReinvestment` (lines 42-65):
below threshold return; otherwise spawn (cost 0.3) when fewer than five
sub-agents, else upgrade (cost 0.5) when `shouldUpgrade`, else nothing.
`spawnSubAgent`'s wallet side effects are outside the ledger model;
its observable effect here is one more sub-agent record. -/
def considerReinvestment (m : RevenueManager) : RevenueManager :=
  if m.earnings.available < m.reinvestmentThreshold then m
  else
    let upgradeCost : ℚ := 1/2
    let spawnCost : ℚ := 3/10
    let canUpgrade := upgradeCost ≤ m.earnings.available
    let canSpawn := spawnCost ≤ m.earnings.available
    if canSpawn ∧ m.subAgents < 5 then
      { m with
        subAgents := m.subAgents + 1
        earnings := { m.earnings with
          available := m.earnings.available - spawnCost
          reinvested := m.earnings.reinvested + spawnCost } }
    else if canUpgrade ∧ shouldUpgrade m then
      { m with
        earnings := { m.earnings with
          available := m.earnings.available - upgradeCost
          reinvested := m.earnings.reinvested + upgradeCost } }
    else m

/-- Embedding of `RevenueManager.recordPayment` (lines 28-40): add the
amount to `total`, the service's entry and `available` unconditionally,
then run the reinvestment check when `available ≥ threshold`. -/
def recordPayment (m : RevenueManager) (serviceId : String) (amount : ℚ) :
    RevenueManager :=
  let e := m.earnings
  let e1 : AgentEarnings :=
    { total := e.total + amount
      byService := updateService e.byService serviceId amount
      reinvested := e.reinvested
      available := e.available + amount }
  let m1 : RevenueManager := { m with earnings := e1 }
  if m1.earnings.available ≥ m.reinvestmentThreshold then considerReinvestment m1
  else m1

/-- External calls that mutate the ledger: a paid service request
(`recordPayment`) or an explicit reinvestment check (as in the
autonomous cycle). -/
inductive AgentOp where
  | payment (serviceId : String) (amount : ℚ)
  | reinvest
  deriving DecidableEq, Repr

/-- Apply one external call to the manager state. -/
def applyOp (m : RevenueManager) : AgentOp → RevenueManager
  | .payment sid amt => recordPayment m sid amt
  | .reinvest => considerReinvestment m

/-- Run a sequence of external calls. -/
def runOps (m : RevenueManager) : List AgentOp → RevenueManager
  | [] => m
  | op :: ops => runOps (applyOp m op) ops

/-- Initial manager state from the constructor: empty ledger, no
sub-agents, the given reinvestment threshold (default 1.0). -/
def initRevenueManager (threshold : ℚ) : RevenueManager :=
  { earnings := { total := 0, byService := [], reinvested := 0, available := 0 }
    reinvestmentThreshold := threshold
    subAgents := 0 }

/-- Ledger arithmetic invariant stated by the spec:
`total = sum(byService)` and `available = total - reinvested`. -/
def LedgerInvariant (m : RevenueManager) : Prop :=
  m.earnings.total = sumByService m.earnings.byService ∧
  m.earnings.available = m.earnings.total - m.earnings.reinvested

/-- Input record of `AIEngine.generateTradingSignals` (TradingSignalInput). -/
structure TradingSignalInput where
  price : ℚ
  volume24h : ℚ
  priceChange24h : ℚ
  liquidity : ℚ
  sentiment : ℚ
  deriving DecidableEq, Repr

/-- Fixed weight table `AIEngine.modelWeights`. -/
structure ModelWeights where
  price : ℚ
  volume : ℚ
  sentiment : ℚ
  momentum : ℚ
  liquidity : ℚ
  deriving DecidableEq, Repr

/-- Values of `AIEngine.modelWeights`:
price 0.3, volume 0.25, sentiment 0.2, momentum 0.15, liquidity 0.1. -/
def modelWeights : ModelWeights :=
  { price := 3/10, volume := 1/4, sentiment := 1/5, momentum := 3/20
    liquidity := 1/10 }

/-- Running sum of `AIEngine.calculateSignalScore` before the final clamp
(lines 381-399): the code adds the price, volume, sentiment and liquidity
terms and never reads `modelWeights.momentum`. -/
def preClampSignalScore (input : TradingSignalInput) : ℚ :=
  let priceMomentum := input.priceChange24h / 100
  let score1 := priceMomentum * modelWeights.price
  let volumeScore := min (input.volume24h / 1000000) 1
  let score2 := score1 + volumeScore * modelWeights.volume
  let score3 := score2 + input.sentiment * modelWeights.sentiment
  let liquidityScore := min (input.liquidity / 10000000) 1
  score3 + liquidityScore * modelWeights.liquidity

/-- Embedding of `AIEngine.calculateSignalScore`: the weighted sum clamped
to [-1, 1] by `Math.max(-1, Math.min(1, score))`. -/
def calculateSignalScore (input : TradingSignalInput) : ℚ :=
  max (-1) (min 1 (preClampSignalScore input))

/-- Weighted linear combination written the way the spec describes the
scoring algorithm, with the coefficient on `priceChange24h / 100` left as
a parameter (the spec and the code disagree on its value). -/
def specLinearScore (priceCoefficient : ℚ) (input : TradingSignalInput) : ℚ :=
  priceCoefficient * (input.priceChange24h / 100) +
    1/4 * min (input.volume24h / 1000000) 1 +
    1/5 * input.sentiment +
    1/10 * min (input.liquidity / 10000000) 1

/-- Trading action of a signal. -/
inductive TradeAction where
  | buy
  | sell
  | hold
  deriving DecidableEq, Repr

/-- Embedding of `AIEngine.determineAction`:
score > 0.3 buy, score < -0.3 sell, otherwise hold. -/
def determineAction (score : ℚ) : TradeAction :=
  if score > 3/10 then .buy
  else if score < -(3/10) then .sell
  else .hold

/-- TradingSignal record; the presentational `reasoning` string produced by
`generateReasoning` is omitted from the model. The code stores
`input.price.toString()` in the `token` field. -/
structure TradingSignal where
  action : TradeAction
  token : String
  confidence : ℚ
  price : ℚ
  deriving DecidableEq, Repr

/-- Embedding of `AIEngine.generateTradingSignals`: a primary signal with
confidence `|score|`, plus a secondary hold signal with confidence 0.5
when `0.3 < |score| < 0.7`. -/
def generateTradingSignals (input : TradingSignalInput) : List TradingSignal :=
  let score := calculateSignalScore input
  let action := determineAction score
  let primarySignal : TradingSignal :=
    { action := action
      token := toString input.price
      confidence := |score|
      price := input.price }
  if |score| < 7/10 ∧ |score| > 3/10 then
    [primarySignal, { primarySignal with action := .hold, confidence := 1/2 }]
  else
    [primarySignal]

/-- Embedding of `AIEngine.assessArbitrageRisk`: base 0.3 plus liquidity
proxy `min(priceDiff / 10, 0.4)` plus execution risk 0.2, clamped to at
most 1. Only `priceDiff` of the opportunity argument is read. -/
def assessArbitrageRisk (priceDiff : ℚ) : ℚ :=
  let baseRisk : ℚ := 3/10
  let liquidityRisk := min (priceDiff / 10) (2/5)
  let executionRisk : ℚ := 1/5
  min (baseRisk + liquidityRisk + executionRisk) 1

/-- ArbitrageOpportunity record built by `findArbitrageOpportunities`. -/
structure ArbitrageOpportunity where
  token : String
  dexA : String
  dexB : String
  priceDiff : ℚ
  profitEstimate : ℚ
  risk : ℚ
  deriving DecidableEq, Repr

/-- Ordered pairs (i, j) with i < j over the list of venues, in the order
the double loop of `findArbitrageOpportunities` visits them. -/
def dexPairs {α : Type} : List α → List (α × α)
  | [] => []
  | x :: rest => rest.map (fun y => (x, y)) ++ dexPairs rest

/-- Embedding of `TradingStrategyService.findArbitrageOpportunities` for a
single token. The oracle fetches are abstracted into `fetched`, the list
of (dex, price) results in the order the DEX list is iterated; the code
keeps only positive prices, filters pairs at >0.5% relative difference,
estimates profit as `priceDiff * 0.997`, and sorts by profit descending
(a stable sort, like the JS engine's `Array.prototype.sort`). -/
def findArbitrageOpportunities (token : String) (fetched : List (String × ℚ)) :
    List ArbitrageOpportunity :=
  let prices := fetched.filter (fun p => 0 < p.2)
  let opportunities := (dexPairs prices).filterMap (fun pr =>
    let dexA := pr.1.1
    let dexB := pr.2.1
    let priceA := pr.1.2
    let priceB := pr.2.2
    let priceDiff := |priceA - priceB|
    let avgPrice := (priceA + priceB) / 2
    let priceDiffPercent := priceDiff / avgPrice * 100
    if priceDiffPercent > 1/2 then
      some { token := token, dexA := dexA, dexB := dexB, priceDiff := priceDiff
             profitEstimate := priceDiff * (997/1000)
             risk := assessArbitrageRisk priceDiff }
    else none)
  opportunities.mergeSort (fun a b => decide (b.profitEstimate ≤ a.profitEstimate))

/-- Result record of `TradingStrategyService.executeArbitrage`. -/
structure ArbExecutionResult where
  success : Bool
  txHash1 : Option String
  txHash2 : Option String
  actualProfit : Option ℚ
  errorMsg : Option String
  deriving DecidableEq, Repr

/-- Embedding of `TradingStrategyService.executeArbitrage` (lines 255-335).
`pA`/`pB` are the re-fetched live prices of the opportunity's two venues
and `swap1`/`swap2` the results the two `executeSwap` calls would return
(`none` models a failed leg). Checks in code order: zero price, re-verified
spread below 0.3%, non-positive net profit after the 0.5% slippage and
0.3% fee haircuts, then the two swap legs. -/
def executeArbitrage (amount pA pB : ℚ) (swap1 swap2 : Option String) :
    ArbExecutionResult :=
  if pA = 0 ∨ pB = 0 then
    { success := false, txHash1 := none, txHash2 := none, actualProfit := none
      errorMsg := some "Price data unavailable for one or both DEXs" }
  else
    let currentPriceDiff := |pA - pB|
    let currentAvgPrice := (pA + pB) / 2
    let currentPriceDiffPercent := currentPriceDiff / currentAvgPrice * 100
    if currentPriceDiffPercent < 3/10 then
      { success := false, txHash1 := none, txHash2 := none, actualProfit := none
        errorMsg := some "Arbitrage opportunity no longer viable" }
    else
      let buyPrice := if pA < pB then pA else pB
      let sellPrice := if pA < pB then pB else pA
      let maxSlippage : ℚ := 5/1000
      let safeAmount := amount * (1 - maxSlippage)
      let tokensReceived := safeAmount / buyPrice
      let tokensToSell := tokensReceived * (1 - 3/1000)
      let proceeds := tokensToSell * sellPrice
      let netProfit := proceeds - amount
      if netProfit ≤ 0 then
        { success := false, txHash1 := none, txHash2 := none, actualProfit := none
          errorMsg := some "Arbitrage would result in loss after fees" }
      else
        match swap1 with
        | none =>
          { success := false, txHash1 := none, txHash2 := none
            actualProfit := none, errorMsg := some "First swap failed" }
        | some h1 =>
          match swap2 with
          | none =>
            { success := false, txHash1 := some h1, txHash2 := none
              actualProfit := none, errorMsg := some "Second swap failed" }
          | some h2 =>
            { success := true, txHash1 := some h1, txHash2 := some h2
              actualProfit := some netProfit, errorMsg := none }

/-- Execution guard of `AutonomousAgent.autonomousCycle` (line 419): the
best opportunity is executed only when its profit estimate exceeds the
0.05 minimum profit threshold and its risk is below 0.5. -/
def cycleExecuteGuard (o : ArbitrageOpportunity) : Prop :=
  (5/100 : ℚ) < o.profitEstimate ∧ o.risk < 1/2

/-- Sample manager state above threshold with room to spawn. -/
def mgrRich : RevenueManager :=
  { earnings := { total := 2, byService := [("svc", 2)], reinvested := 0, available := 2 }
    reinvestmentThreshold := 1
    subAgents := 0 }

/-- Sample manager state barely above threshold: one spawn drops it below. -/
def mgrJustOver : RevenueManager :=
  { earnings := { total := 11/10, byService := [("svc", 11/10)], reinvested := 0
                  available := 11/10 }
    reinvestmentThreshold := 1
    subAgents := 0 }

/-- Sample manager state at the five sub-agent cap with high lifetime total. -/
def mgrAtCap : RevenueManager :=
  { earnings := { total := 20, byService := [("svc", 20)], reinvested := 0, available := 2 }
    reinvestmentThreshold := 1
    subAgents := 5 }

lemma sumByService_updateService (l : List (String × ℚ)) (sid : String) (amt : ℚ) :
    sumByService (updateService l sid amt) = sumByService l + amt := by
  induction l with
  | nil => simp [updateService, sumByService]
  | cons hd tl ih =>
    obtain ⟨k, v⟩ := hd
    by_cases h : k = sid
    · simp [updateService, h, sumByService]
      ring
    · simp [updateService, h, sumByService] at ih ⊢
      linarith

lemma considerReinvestment_total (m : RevenueManager) :
    (considerReinvestment m).earnings.total = m.earnings.total := by
  unfold considerReinvestment
  dsimp only
  split_ifs <;> rfl

lemma considerReinvestment_byService (m : RevenueManager) :
    (considerReinvestment m).earnings.byService = m.earnings.byService := by
  unfold considerReinvestment
  dsimp only
  split_ifs <;> rfl

lemma considerReinvestment_threshold (m : RevenueManager) :
    (considerReinvestment m).reinvestmentThreshold = m.reinvestmentThreshold := by
  unfold considerReinvestment
  dsimp only
  split_ifs <;> rfl

lemma considerReinvestment_avail_add (m : RevenueManager) :
    (considerReinvestment m).earnings.available +
      (considerReinvestment m).earnings.reinvested =
    m.earnings.available + m.earnings.reinvested := by
  unfold considerReinvestment
  dsimp only
  split_ifs <;> dsimp only <;> ring

lemma considerReinvestment_invariant {m : RevenueManager}
    (h : LedgerInvariant m) : LedgerInvariant (considerReinvestment m) := by
  obtain ⟨h1, h2⟩ := h
  constructor
  · rw [considerReinvestment_total, considerReinvestment_byService]
    exact h1
  · have := considerReinvestment_avail_add m
    rw [considerReinvestment_total]
    linarith

lemma recordPayment_invariant {m : RevenueManager}
    (h : LedgerInvariant m) (sid : String) (amt : ℚ) :
    LedgerInvariant (recordPayment m sid amt) := by
  obtain ⟨h1, h2⟩ := h
  have hbody : LedgerInvariant
      { m with earnings :=
        { total := m.earnings.total + amt
          byService := updateService m.earnings.byService sid amt
          reinvested := m.earnings.reinvested
          available := m.earnings.available + amt } } := by
    constructor
    · simpa [sumByService_updateService] using congrArg (· + amt) h1
    · simp only
      linarith
  unfold recordPayment
  dsimp only
  split_ifs
  · exact considerReinvestment_invariant hbody
  · exact hbody

lemma applyOp_invariant {m : RevenueManager}
    (h : LedgerInvariant m) (op : AgentOp) : LedgerInvariant (applyOp m op) := by
  cases op with
  | payment sid amt => exact recordPayment_invariant h sid amt
  | reinvest => exact considerReinvestment_invariant h

lemma runOps_invariant {m : RevenueManager}
    (h : LedgerInvariant m) (ops : List AgentOp) :
    LedgerInvariant (runOps m ops) := by
  induction ops generalizing m with
  | nil => exact h
  | cons op ops ih => exact ih (applyOp_invariant h op)

/-- Claim C1: starting from the initial empty ledger, after every sequence of
`recordPayment` and `considerReinvestment` calls, `total` equals the sum
over `byService` and `available` equals `total - reinvested`. -/
theorem ledger_invariant_all_runs (threshold : ℚ) (ops : List AgentOp) :
    LedgerInvariant (runOps (initRevenueManager threshold) ops) := by
  have hinit : LedgerInvariant (initRevenueManager threshold) := by
    constructor <;> simp [initRevenueManager, sumByService]
  exact runOps_invariant hinit ops

/-- Claim C2 counterexample: `recordPayment` has no positivity guard, so
recording the non-positive amount -1 on the fresh ledger changes `total`
and `available` from 0 to -1 instead of being a no-op. -/
theorem recordPayment_nonpositive_changes_ledger :
    (recordPayment (initRevenueManager 1) "svc" (-1)).earnings.total = -1 ∧
    (initRevenueManager 1).earnings.total = 0 ∧
    (recordPayment (initRevenueManager 1) "svc" (-1)).earnings.available = -1 ∧
    (recordPayment (initRevenueManager 1) "svc" (-1)).earnings.total ≠
      (initRevenueManager 1).earnings.total := by
  norm_num [recordPayment, initRevenueManager, considerReinvestment, updateService,
    shouldUpgrade]

/-- Claim C2 amended: `recordPayment(serviceId, amount)` applies the ledger
additions unconditionally for every amount, including amount ≤ 0: `total`
and the sum over `byService` each change by exactly `amount` (so a
non-positive amount is recorded, not ignored), and `available` is
incremented by `amount` up to the embedded reinvestment check, which may
move part of it into `reinvested`: the sum `available + reinvested`
changes by exactly `amount`. -/
theorem recordPayment_unconditional (m : RevenueManager) (sid : String) (amt : ℚ) :
    (recordPayment m sid amt).earnings.total = m.earnings.total + amt ∧
    sumByService (recordPayment m sid amt).earnings.byService =
      sumByService m.earnings.byService + amt ∧
    (recordPayment m sid amt).earnings.available +
        (recordPayment m sid amt).earnings.reinvested =
      m.earnings.available + m.earnings.reinvested + amt := by
  unfold recordPayment
  dsimp only
  split_ifs
  · rw [considerReinvestment_total, considerReinvestment_byService]
    refine ⟨rfl, sumByService_updateService _ _ _, ?_⟩
    rw [considerReinvestment_avail_add]
    dsimp only
    ring
  · exact ⟨rfl, sumByService_updateService _ _ _, by dsimp only; ring⟩

lemma shouldUpgrade_eq_true (m : RevenueManager) :
    shouldUpgrade m = true ↔ (m.subAgents < 2 ∨ (10 : ℚ) < m.earnings.total) := by
  simp [shouldUpgrade]

/-- Claim C3: the reinvestment decision procedure. Below the threshold nothing
changes; at or above it, the spawn branch (available ≥ 0.3 and fewer than
5 sub-agents) adds exactly one sub-agent and moves 0.3 from available to
reinvested; otherwise the upgrade branch (available ≥ 0.5 and (sub-agent
count < 2 or lifetime total > 10)) moves 0.5 with no sub-agent added;
otherwise the state is unchanged. -/
theorem considerReinvestment_decision (m : RevenueManager) :
    (m.earnings.available < m.reinvestmentThreshold → considerReinvestment m = m) ∧
    (m.reinvestmentThreshold ≤ m.earnings.available →
      (((3/10 : ℚ) ≤ m.earnings.available → m.subAgents < 5 →
        (considerReinvestment m).subAgents = m.subAgents + 1 ∧
        (considerReinvestment m).earnings.available = m.earnings.available - 3/10 ∧
        (considerReinvestment m).earnings.reinvested = m.earnings.reinvested + 3/10 ∧
        (considerReinvestment m).earnings.total = m.earnings.total ∧
        (considerReinvestment m).earnings.byService = m.earnings.byService) ∧
      (¬ ((3/10 : ℚ) ≤ m.earnings.available ∧ m.subAgents < 5) →
        (1/2 : ℚ) ≤ m.earnings.available →
        (m.subAgents < 2 ∨ (10 : ℚ) < m.earnings.total) →
        (considerReinvestment m).subAgents = m.subAgents ∧
        (considerReinvestment m).earnings.available = m.earnings.available - 1/2 ∧
        (considerReinvestment m).earnings.reinvested = m.earnings.reinvested + 1/2 ∧
        (considerReinvestment m).earnings.total = m.earnings.total ∧
        (considerReinvestment m).earnings.byService = m.earnings.byService) ∧
      (¬ ((3/10 : ℚ) ≤ m.earnings.available ∧ m.subAgents < 5) →
        ¬ ((1/2 : ℚ) ≤ m.earnings.available ∧
           (m.subAgents < 2 ∨ (10 : ℚ) < m.earnings.total)) →
        considerReinvestment m = m))) := by
  constructor
  · intro h
    unfold considerReinvestment
    rw [if_pos h]
  intro hth
  have hnlt : ¬ m.earnings.available < m.reinvestmentThreshold := not_lt.mpr hth
  refine ⟨?_, ?_, ?_⟩
  · intro h3 h5
    unfold considerReinvestment
    dsimp only
    rw [if_neg hnlt, if_pos ⟨h3, h5⟩]
    exact ⟨rfl, rfl, rfl, rfl, rfl⟩
  · intro hns h5 hup
    have hupb : shouldUpgrade m = true := (shouldUpgrade_eq_true m).mpr hup
    unfold considerReinvestment
    dsimp only
    rw [if_neg hnlt, if_neg hns, if_pos ⟨h5, hupb⟩]
    exact ⟨rfl, rfl, rfl, rfl, rfl⟩
  · intro hns hnu
    have hnu' : ¬ ((1/2 : ℚ) ≤ m.earnings.available ∧ shouldUpgrade m = true) := by
      rw [and_congr_right_iff.mpr (fun _ => shouldUpgrade_eq_true m)]
      exact hnu
    unfold considerReinvestment
    dsimp only
    rw [if_neg hnlt, if_neg hns, if_neg hnu']

/-- Witness for C3: on a state with available 2, threshold 1 and no
sub-agents, the spawn branch fires and its effects are as stated. -/
theorem considerReinvestment_decision_witness :
    (considerReinvestment mgrRich).subAgents = mgrRich.subAgents + 1 ∧
    (considerReinvestment mgrRich).earnings.available =
      mgrRich.earnings.available - 3/10 ∧
    (considerReinvestment mgrRich).earnings.reinvested =
      mgrRich.earnings.reinvested + 3/10 ∧
    (considerReinvestment mgrRich).earnings.total = mgrRich.earnings.total ∧
    (considerReinvestment mgrRich).earnings.byService = mgrRich.earnings.byService :=
  ((considerReinvestment_decision mgrRich).2 (by norm_num [mgrRich])).1
    (by norm_num [mgrRich]) (by norm_num [mgrRich])

lemma considerReinvestment_subAgents_le {m : RevenueManager} (h : m.subAgents ≤ 5) :
    (considerReinvestment m).subAgents ≤ 5 := by
  unfold considerReinvestment
  dsimp only
  split_ifs with h1 h2 h3
  · exact h
  · exact h2.2
  · exact h
  · exact h

lemma recordPayment_subAgents_le {m : RevenueManager} (h : m.subAgents ≤ 5)
    (sid : String) (amt : ℚ) : (recordPayment m sid amt).subAgents ≤ 5 := by
  unfold recordPayment
  dsimp only
  split_ifs
  · exact considerReinvestment_subAgents_le h
  · exact h

lemma runOps_subAgents_le {m : RevenueManager} (h : m.subAgents ≤ 5)
    (ops : List AgentOp) : (runOps m ops).subAgents ≤ 5 := by
  induction ops generalizing m with
  | nil => exact h
  | cons op ops ih =>
    cases op with
    | payment sid amt => exact ih (recordPayment_subAgents_le h sid amt)
    | reinvest => exact ih (considerReinvestment_subAgents_le h)

/-- Claim C4: from the initial state, the number of sub-agent records never
exceeds 5 under any sequence of calls; and at the cap, a reinvestment
check either leaves the state unchanged or takes the upgrade branch
(debit 0.5, credit 0.5, sub-agent count still 5). -/
theorem spawn_cap (threshold : ℚ) (ops : List AgentOp) (m : RevenueManager) :
    (runOps (initRevenueManager threshold) ops).subAgents ≤ 5 ∧
    (m.subAgents = 5 →
      considerReinvestment m = m ∨
      ((considerReinvestment m).subAgents = 5 ∧
       (considerReinvestment m).earnings.available = m.earnings.available - 1/2 ∧
       (considerReinvestment m).earnings.reinvested = m.earnings.reinvested + 1/2)) := by
  constructor
  · exact runOps_subAgents_le (by simp [initRevenueManager]) ops
  · intro h5
    by_cases hlt : m.earnings.available < m.reinvestmentThreshold
    · exact Or.inl ((considerReinvestment_decision m).1 hlt)
    · have hth : m.reinvestmentThreshold ≤ m.earnings.available := not_lt.mp hlt
      have hns : ¬ ((3/10 : ℚ) ≤ m.earnings.available ∧ m.subAgents < 5) := by
        rintro ⟨-, hc⟩
        rw [h5] at hc
        exact lt_irrefl 5 hc
      by_cases hup : (1/2 : ℚ) ≤ m.earnings.available ∧
          (m.subAgents < 2 ∨ (10 : ℚ) < m.earnings.total)
      · obtain ⟨ha, hb, hc, -, -⟩ :=
          (((considerReinvestment_decision m).2 hth).2.1) hns hup.1 hup.2
        exact Or.inr ⟨by rw [ha, h5], hb, hc⟩
      · exact Or.inl ((((considerReinvestment_decision m).2 hth).2.2) hns hup)

/-- Witness for C4: at the cap with a high lifetime total, the theorem
applies; here the upgrade branch fires. -/
theorem spawn_cap_witness :
    (runOps (initRevenueManager 1) []).subAgents ≤ 5 ∧
    (considerReinvestment mgrAtCap = mgrAtCap ∨
      ((considerReinvestment mgrAtCap).subAgents = 5 ∧
       (considerReinvestment mgrAtCap).earnings.available =
         mgrAtCap.earnings.available - 1/2 ∧
       (considerReinvestment mgrAtCap).earnings.reinvested =
         mgrAtCap.earnings.reinvested + 1/2)) :=
  ⟨(spawn_cap 1 [] mgrAtCap).1, (spawn_cap 1 [] mgrAtCap).2 rfl⟩

/-- Claim C5 counterexample: on the state with available 2 and threshold 1,
both of two consecutive `considerReinvestment` calls perform a
reinvestment action (each call spawns and debits 0.3), so two debits of
available happen with no intervening payment. -/
theorem considerReinvestment_twice_two_actions :
    considerReinvestment mgrRich ≠ mgrRich ∧
    considerReinvestment (considerReinvestment mgrRich) ≠
      considerReinvestment mgrRich ∧
    (considerReinvestment (considerReinvestment mgrRich)).earnings.reinvested =
      mgrRich.earnings.reinvested + 3/10 + 3/10 := by
  norm_num [considerReinvestment, mgrRich, shouldUpgrade]

/-- Claim C5 amended: the second of two consecutive `considerReinvestment` calls
is a no-op provided the first call left the available balance below the
threshold (which a call need not do: see the counterexample). -/
theorem considerReinvestment_second_noop (m : RevenueManager)
    (h : (considerReinvestment m).earnings.available < m.reinvestmentThreshold) :
    considerReinvestment (considerReinvestment m) = considerReinvestment m :=
  (considerReinvestment_decision (considerReinvestment m)).1
    (by rw [considerReinvestment_threshold]; exact h)

/-- Witness for C5: from available 1.1 with threshold 1, the first call
spawns and drops available to 0.8 < 1, so the second call is a no-op. -/
theorem considerReinvestment_second_noop_witness :
    considerReinvestment (considerReinvestment mgrJustOver) =
      considerReinvestment mgrJustOver :=
  considerReinvestment_second_noop mgrJustOver
    (by norm_num [considerReinvestment, mgrJustOver, shouldUpgrade])

/-- Claim C6 counterexample: on the input with priceChange24h = 100 and all
other factors 0, the pre-clamp score computed by the code is 0.30, not the
0.45 that an effective coefficient of price weight plus momentum weight on
`priceChange24h / 100` would give: the claimed double-counting does not
happen. -/
theorem score_momentum_weight_unused :
    preClampSignalScore ⟨1, 0, 100, 0, 0⟩ = 3/10 ∧
    specLinearScore (modelWeights.price + modelWeights.momentum) ⟨1, 0, 100, 0, 0⟩ =
      9/20 ∧
    preClampSignalScore ⟨1, 0, 100, 0, 0⟩ ≠
      specLinearScore (modelWeights.price + modelWeights.momentum) ⟨1, 0, 100, 0, 0⟩ := by
  norm_num [preClampSignalScore, specLinearScore, modelWeights]

/-- Claim C6 amended: for every input the pre-clamp score applies
`priceChange24h / 100` only under the price weight 0.30, together with
0.25 times the normalized volume, 0.20 times sentiment and 0.10 times the
normalized liquidity; the momentum weight, whose table value is 0.15, is
never applied, and the final score clamps that sum to [-1, 1]. -/
theorem score_single_price_weight (input : TradingSignalInput) :
    preClampSignalScore input = specLinearScore modelWeights.price input ∧
    calculateSignalScore input =
      max (-1) (min 1 (specLinearScore modelWeights.price input)) ∧
    modelWeights.momentum = 3/20 := by
  have h : preClampSignalScore input = specLinearScore modelWeights.price input := by
    unfold preClampSignalScore specLinearScore modelWeights
    dsimp only
    ring
  exact ⟨h, by rw [calculateSignalScore, h], rfl⟩

lemma findArb_pair (tok dA dB : String) (pA pB : ℚ) (hA : 0 < pA) (hB : 0 < pB) :
    findArbitrageOpportunities tok [(dA, pA), (dB, pB)] =
      if 1/2 < |pA - pB| / ((pA + pB) / 2) * 100 then
        [{ token := tok, dexA := dA, dexB := dB, priceDiff := |pA - pB|,
           profitEstimate := |pA - pB| * (997/1000),
           risk := assessArbitrageRisk |pA - pB| }]
      else [] := by
  unfold findArbitrageOpportunities
  dsimp only
  simp only [List.filter_cons, List.filter_nil, decide_eq_true_eq, hA, hB, if_pos,
    if_true, dexPairs, List.map, List.append_nil, List.filterMap_cons, List.filterMap_nil]
  split_ifs <;> simp [List.mergeSort]

lemma findArb_mem_profit {tok : String} {fetched : List (String × ℚ)}
    {o : ArbitrageOpportunity} (ho : o ∈ findArbitrageOpportunities tok fetched) :
    o.profitEstimate = o.priceDiff * (997/1000) ∧ 0 ≤ o.priceDiff ∧
    o.risk = assessArbitrageRisk o.priceDiff := by
  unfold findArbitrageOpportunities at ho
  rw [List.mem_mergeSort, List.mem_filterMap] at ho
  obtain ⟨pr, -, hpr⟩ := ho
  dsimp only at hpr
  split_ifs at hpr with h
  obtain rfl := Option.some.inj hpr
  exact ⟨rfl, abs_nonneg _, rfl⟩

lemma findArb_jupiter_raydium_eval :
    findArbitrageOpportunities "tok" [("jupiter", 100), ("raydium", 100 + 6/10)] =
      [⟨"tok", "jupiter", "raydium", 3/5, 2991/5000, 14/25⟩] := by
  norm_num [findArbitrageOpportunities, dexPairs, assessArbitrageRisk, List.filter,
    List.filterMap_cons, abs_sub_comm (100 : ℚ), List.mergeSort]
  norm_num [abs_of_nonneg]

/-- Claim C7: a positive-price venue pair is kept exactly when its relative
price difference `100 * |priceA - priceB| / ((priceA + priceB) / 2)`
exceeds 0.5; the pair {100, 100.3} is excluded, the pair {100, 100.6} is
included, and every kept entry has `profitEstimate = priceDiff * 0.997`. -/
theorem arbitrage_pair_filter :
    (∀ (tok dA dB : String) (pA pB : ℚ), 0 < pA → 0 < pB →
      (findArbitrageOpportunities tok [(dA, pA), (dB, pB)] ≠ [] ↔
        100 * |pA - pB| / ((pA + pB) / 2) > 1/2)) ∧
    findArbitrageOpportunities "tok" [("jupiter", 100), ("raydium", 100 + 3/10)] = [] ∧
    findArbitrageOpportunities "tok" [("jupiter", 100), ("raydium", 100 + 6/10)] ≠ [] ∧
    (∀ (tok : String) (fetched : List (String × ℚ)) (o : ArbitrageOpportunity),
      o ∈ findArbitrageOpportunities tok fetched →
      o.profitEstimate = o.priceDiff * (997/1000)) := by
  refine ⟨?_, ?_, ?_, ?_⟩
  · intro tok dA dB pA pB hA hB
    rw [findArb_pair tok dA dB pA pB hA hB]
    have heq : |pA - pB| / ((pA + pB) / 2) * 100 = 100 * |pA - pB| / ((pA + pB) / 2) := by
      ring
    rw [heq]
    split_ifs with h
    · simp only [ne_eq, List.cons_ne_nil, not_false_eq_true, true_iff]
      exact h
    · simp only [ne_eq, not_true_eq_false, false_iff, not_lt, ge_iff_le]
      exact not_lt.mp h
  · norm_num [findArbitrageOpportunities, dexPairs, assessArbitrageRisk, List.filter,
      List.filterMap_cons, abs_sub_comm (100 : ℚ)]
    norm_num [abs_of_nonneg]
  · rw [findArb_jupiter_raydium_eval]
    simp
  · intro tok fetched o ho
    exact (findArb_mem_profit ho).1

/-- Witness for C7: the filter criterion applied at prices 100 and 100.6,
and the profit formula at the concrete opportunity those prices produce. -/
theorem arbitrage_pair_filter_witness :
    (findArbitrageOpportunities "tok" [("jupiter", 100), ("raydium", 100 + 6/10)] ≠ [] ↔
      100 * |(100 : ℚ) - (100 + 6/10)| / ((100 + (100 + 6/10)) / 2) > 1/2) ∧
    (⟨"tok", "jupiter", "raydium", 3/5, 2991/5000, 14/25⟩ :
        ArbitrageOpportunity).profitEstimate =
      (⟨"tok", "jupiter", "raydium", 3/5, 2991/5000, 14/25⟩ :
        ArbitrageOpportunity).priceDiff * (997/1000) :=
  ⟨arbitrage_pair_filter.1 "tok" "jupiter" "raydium" 100 (100 + 6/10)
      (by norm_num) (by norm_num),
   arbitrage_pair_filter.2.2.2 "tok" [("jupiter", 100), ("raydium", 100 + 6/10)] _
      (by
        rw [findArb_jupiter_raydium_eval]
        exact List.mem_singleton.mpr rfl)⟩

/-- Claim C8: when both re-fetched live prices are positive and the
re-verified spread is strictly below 0.3%, `executeArbitrage` returns a
failure result with an error message, no swap transaction references and
no profit, whatever the trade amount and whatever the two swap legs would
have returned. -/
theorem executeArbitrage_stale_guard (amount pA pB : ℚ) (s1 s2 : Option String)
    (hA : 0 < pA) (hB : 0 < pB)
    (h : |pA - pB| / ((pA + pB) / 2) * 100 < 3/10) :
    executeArbitrage amount pA pB s1 s2 =
      { success := false, txHash1 := none, txHash2 := none, actualProfit := none
        errorMsg := some "Arbitrage opportunity no longer viable" } := by
  unfold executeArbitrage
  dsimp only
  rw [if_neg (not_or.mpr ⟨hA.ne', hB.ne'⟩), if_pos h]

/-- Witness for C8: live prices 100 and 100.2 give a 0.2% spread, below
the 0.3% re-verification bar, so the execution is rejected without swaps. -/
theorem executeArbitrage_stale_guard_witness :
    executeArbitrage 1 100 (100 + 2/10) (some "leg1") (some "leg2") =
      { success := false, txHash1 := none, txHash2 := none, actualProfit := none
        errorMsg := some "Arbitrage opportunity no longer viable" } :=
  executeArbitrage_stale_guard 1 100 (100 + 2/10) (some "leg1") (some "leg2")
    (by norm_num) (by norm_num)
    (by rw [abs_sub_comm]; norm_num [abs_of_nonneg])

/-- Claim C10: for every non-negative price difference the assessed
arbitrage risk is `0.5 + min(priceDiff / 10, 0.4)`, so it lies in
[0.5, 0.9] and the final clamp at 1.0 never binds; consequently every
opportunity produced by `findArbitrageOpportunities` has risk at least
0.5 and never satisfies the autonomous cycle's execution guard, whose
risk condition requires risk < 0.5. -/
theorem arbitrage_risk_floor :
    (∀ d : ℚ, 0 ≤ d →
      assessArbitrageRisk d = 1/2 + min (d / 10) (2/5) ∧
      1/2 ≤ assessArbitrageRisk d ∧ assessArbitrageRisk d ≤ 9/10) ∧
    (∀ (tok : String) (fetched : List (String × ℚ)) (o : ArbitrageOpportunity),
      o ∈ findArbitrageOpportunities tok fetched →
      1/2 ≤ o.risk ∧ ¬ cycleExecuteGuard o) := by
  have hmain : ∀ d : ℚ, 0 ≤ d →
      assessArbitrageRisk d = 1/2 + min (d / 10) (2/5) ∧
      1/2 ≤ assessArbitrageRisk d ∧ assessArbitrageRisk d ≤ 9/10 := by
    intro d hd
    have h1 : 0 ≤ min (d/10) (2/5) := le_min (by positivity) (by norm_num)
    have h2 : min (d/10) (2/5) ≤ 2/5 := min_le_right _ _
    have hle : (3/10 : ℚ) + min (d/10) (2/5) + 1/5 ≤ 1 := by linarith
    unfold assessArbitrageRisk
    dsimp only
    rw [min_eq_left hle]
    refine ⟨by ring, by linarith, by linarith⟩
  refine ⟨hmain, ?_⟩
  intro tok fetched o ho
  obtain ⟨-, hd, hrisk⟩ := findArb_mem_profit ho
  refine ⟨by rw [hrisk]; exact (hmain o.priceDiff hd).2.1, ?_⟩
  rintro ⟨-, hlt⟩
  rw [hrisk] at hlt
  have := (hmain o.priceDiff hd).2.1
  linarith

/-- Witness for C10: the risk formula at price difference 1, and the risk
floor at the concrete opportunity built from prices 100 and 100.6. -/
theorem arbitrage_risk_floor_witness :
    (assessArbitrageRisk 1 = 1/2 + min ((1 : ℚ) / 10) (2/5) ∧
     1/2 ≤ assessArbitrageRisk 1 ∧ assessArbitrageRisk 1 ≤ 9/10) ∧
    (1/2 ≤ (⟨"tok", "jupiter", "raydium", 3/5, 2991/5000, 14/25⟩ :
        ArbitrageOpportunity).risk ∧
     ¬ cycleExecuteGuard ⟨"tok", "jupiter", "raydium", 3/5, 2991/5000, 14/25⟩) :=
  ⟨arbitrage_risk_floor.1 1 (by norm_num),
   arbitrage_risk_floor.2 "tok" [("jupiter", 100), ("raydium", 100 + 6/10)] _
      (by
        rw [findArb_jupiter_raydium_eval]
        exact List.mem_singleton.mpr rfl)⟩

/-- Claim C9: on the saturating input (priceChange24h 1000, volume24h
10,000,000, sentiment 1, liquidity 50,000,000, any price) the score clamps
to exactly 1, the selected action is buy, and the single generated signal
has confidence 1. -/
theorem scoring_saturation (p : ℚ) :
    calculateSignalScore ⟨p, 10000000, 1000, 50000000, 1⟩ = 1 ∧
    determineAction (calculateSignalScore ⟨p, 10000000, 1000, 50000000, 1⟩) = .buy ∧
    (generateTradingSignals ⟨p, 10000000, 1000, 50000000, 1⟩).map
        (fun s => (s.action, s.confidence)) = [(TradeAction.buy, 1)] := by
  have hscore : calculateSignalScore ⟨p, 10000000, 1000, 50000000, 1⟩ = 1 := by
    norm_num [calculateSignalScore, preClampSignalScore, modelWeights, min_def, max_def]
  refine ⟨hscore, ?_, ?_⟩
  · rw [hscore]
    norm_num [determineAction]
  · simp only [generateTradingSignals, hscore]
    norm_num [determineAction]

end BlockchainAgent
